import Mathlib

/-!
Verification development for the DataScienceApp profiling engine
(`src/app/page.tsx`).  The engine's cell values (`string | number | null`)
are embedded as a tagged union with rational numbers standing for the
finite JS numbers; rows are association lists from column names to values.
Every pure helper of the source file (`toNumber`, `isNullValue`,
`detectOrder`, `parseDateValue`, `buildHistogram`, `calculateCorrelation`,
`analyzeData`, and the memoized `correlationMatrix` / `scatterPairs`
builders) is translated into a Lean definition below, and the theorems at
the end of the file settle the specification claims against them.
-/

namespace DataApp

/-- JS whitespace characters relevant to `String.prototype.trim` and to
`Number(string)` (space, tab, and line terminators). -/
def isJsWhitespace (c : Char) : Bool :=
  c = ' ' || c = '\t' || c = '\n' || c = '\r' || c = '\x0b' || c = '\x0c'

/-- `String.prototype.trim`: drop leading and trailing whitespace. -/
def trimChars (l : List Char) : List Char :=
  ((l.dropWhile isJsWhitespace).reverse.dropWhile isJsWhitespace).reverse

/-- `String(value).replace(/,/g, ".")`: every comma becomes a dot. -/
def replaceCommas (l : List Char) : List Char :=
  l.map (fun c => if c = ',' then '.' else c)

/-- Decimal digit run to a natural number (most significant first). -/
def digitsToNat (l : List Char) : ℕ :=
  l.foldl (fun acc c => acc * 10 + (c.toNat - 48)) 0

/-- Parse the exponent part after `e`/`E`: optional sign then at least one
digit. -/
def parseExponent (l : List Char) : Option ℤ :=
  match l with
  | '+' :: r => if r ≠ [] ∧ r.all Char.isDigit then some (digitsToNat r) else none
  | '-' :: r => if r ≠ [] ∧ r.all Char.isDigit then some (-(digitsToNat r : ℤ)) else none
  | r => if r ≠ [] ∧ r.all Char.isDigit then some (digitsToNat r) else none

/-- Parse an unsigned JS decimal literal `digits [. digits] [exp]` /
`. digits [exp]`.  Returns `none` for anything else (the `NaN` outcome).
The hex/octal/binary and `Infinity` forms of the full JS grammar are not
modelled: the engine immediately discards non-finite results, and no claim
depends on those literal forms. -/
def parseUnsignedDec (l : List Char) : Option ℚ :=
  let ip := l.takeWhile Char.isDigit
  let r1 := l.dropWhile Char.isDigit
  match r1 with
  | [] => if ip = [] then none else some (digitsToNat ip)
  | '.' :: r2 =>
    let fp := r2.takeWhile Char.isDigit
    let r3 := r2.dropWhile Char.isDigit
    if ip = [] ∧ fp = [] then none
    else
      let base : ℚ := (digitsToNat ip : ℚ) + (digitsToNat fp : ℚ) / ((10 : ℚ) ^ fp.length)
      match r3 with
      | [] => some base
      | e :: r4 =>
        if e = 'e' ∨ e = 'E' then (parseExponent r4).map (fun k => base * (10 : ℚ) ^ k)
        else none
  | e :: r4 =>
    if (e = 'e' ∨ e = 'E') ∧ ip ≠ [] then
      (parseExponent r4).map (fun k => ((digitsToNat ip : ℚ)) * (10 : ℚ) ^ k)
    else none

/-- `Number(s)` for a string `s`: trim whitespace, empty means `0`,
otherwise an optionally signed decimal literal; `none` models `NaN`. -/
def jsParseNumber (s : String) : Option ℚ :=
  let t := trimChars s.data
  match t with
  | [] => some 0
  | '+' :: r => parseUnsignedDec r
  | '-' :: r => (parseUnsignedDec r).map (fun q => -q)
  | r => parseUnsignedDec r

/-- A cell value: `string | number | null` of the source, with rationals
standing for the finite JS numbers.  A missing key behaves like `null`
everywhere the engine reads it. -/
inductive Value where
  | num (q : ℚ)
  | text (s : String)
  | null
deriving DecidableEq

/-- `toNumber` of the source: `null`/missing gives `null`; a number stays
itself (rationals are always finite); a string is parsed after replacing
commas with dots, keeping only finite results. -/
def toNumber : Value → Option ℚ
  | .null => none
  | .num q => some q
  | .text s => jsParseNumber (String.mk (replaceCommas s.data))

/-- `isNullValue` of the source: `null`/missing, or a string that trims to
the empty string; a number is never null. -/
def isNullValue : Value → Bool
  | .null => true
  | .num _ => false
  | .text s => trimChars s.data = []

/-- The three order classifications produced by `detectOrder`. -/
inductive Order3 where
  | ascendente
  | descendente
  | sinOrden
deriving DecidableEq

/-- `detectOrder` of the source, generic in the native `<` / `>` of the
compared values: fewer than two values is `sinOrden`; otherwise the loop
clears `ascending` on any strictly descending adjacent pair and
`descending` on any strictly ascending one, checking `ascending` first. -/
def detectOrderG {α : Type} (lt gt : α → α → Bool) (values : List α) : Order3 :=
  if values.length < 2 then .sinOrden
  else
    let asc := (values.zip values.tail).all (fun p => !(lt p.2 p.1))
    let desc := (values.zip values.tail).all (fun p => !(gt p.2 p.1))
    if asc then .ascendente
    else if desc then .descendente
    else .sinOrden

/-- `detectOrder` on values of a decidable linear order (the behaviour of
JS `<` / `>` on a homogeneous sequence of numbers or of strings). -/
def detectOrderLin {α : Type} [LinearOrder α] (values : List α) : Order3 :=
  detectOrderG (fun a b => decide (a < b)) (fun a b => decide (b < a)) values

/-- The comparable representation used for order detection:
`typeof value === "number" ? value : String(value)`. -/
inductive Comparable where
  | num (q : ℚ)
  | text (s : String)
deriving DecidableEq

/-- JS `a < b` on the comparable representation: two strings compare
lexicographically; otherwise both sides are converted to numbers
(`Number(string)` for the string side) and a `NaN` conversion makes the
comparison false. -/
def ltC : Comparable → Comparable → Bool
  | .num a, .num b => a < b
  | .text a, .text b => a < b
  | .num a, .text b => (jsParseNumber b).elim false (fun q => a < q)
  | .text a, .num b => (jsParseNumber a).elim false (fun q => q < b)

/-- JS `a > b` on the comparable representation, mirroring `ltC`. -/
def gtC (a b : Comparable) : Bool := ltC b a

/-- `String(value)` for a non-null value (a number never reaches the
string branch of the source's conversion because `comparableValues` keeps
numbers as numbers). -/
def toComparable : Value → Comparable
  | .num q => .num q
  | .text s => .text s
  | .null => .text (String.mk ['n', 'u', 'l', 'l'])

/-- `parseDateValue` of the source, parameterised by the engine-dependent
validity predicate of `new Date(value)`: `null`/missing and the exact
empty string never parse; otherwise the constructor decides. -/
def parseDateOk (dateOk : Value → Bool) (v : Value) : Bool :=
  if v = .null ∨ v = .text (String.mk []) then false else dateOk v

/-- A row: an association list from column names to values; a name absent
from the list is the source's missing key. -/
def Row : Type := List (String × Value)

/-- `row[column] ?? null`: the stored value, or `null` for a missing key
(`undefined` and `null` behave identically in every engine read). -/
def rowGet (r : Row) (column : String) : Value :=
  ((List.lookup column r).getD .null)

/-- The per-column statistics record of the source. -/
inductive DataType where
  | numerico
  | texto
  | mixto
  | vacio
deriving DecidableEq

structure ColumnStats where
  name : String
  totalRows : ℕ
  nullCount : ℕ
  positiveCount : ℕ
  dataType : DataType
  ordered : Order3
deriving DecidableEq

structure AnalysisResult where
  totalRows : ℕ
  totalColumns : ℕ
  hasNulls : Bool
  orderedByFirstColumn : Bool
  totalPositiveValues : ℕ
  columnsWithNulls : ℕ
  columnStats : List ColumnStats
  numericColumns : List String
  dateColumns : List String
  rawRows : List Row

/-- First-occurrence deduplication with the set of already-seen names:
each name is appended the first time it is inserted. -/
def dedupFirstAux (seen : List String) : List String → List String
  | [] => []
  | x :: xs => if x ∈ seen then dedupFirstAux seen xs else x :: dedupFirstAux (x :: seen) xs

/-- `Array.from(new Set(...))`, which in JS keeps insertion order. -/
def dedupFirst (l : List String) : List String :=
  dedupFirstAux [] l

/-- The per-column body of `columns.map(...)` inside `analyzeData`. -/
def computeColumnStats (rows : List Row) (column : String) : ColumnStats :=
  let values := rows.map (fun r => rowGet r column)
  let nullCount := (values.filter (fun v => isNullValue v)).length
  let numericValues := values.filterMap toNumber
  let positiveCount := (numericValues.filter (fun q => 0 < q)).length
  let nonNullValues := values.filter (fun v => !isNullValue v)
  let dataType :=
    if nonNullValues.length > 0 then
      let numericCount := (nonNullValues.filter (fun v => (toNumber v).isSome)).length
      if numericCount = nonNullValues.length then DataType.numerico
      else if numericCount = 0 then DataType.texto
      else DataType.mixto
    else DataType.vacio
  let comparableValues := nonNullValues.map toComparable
  { name := column
    totalRows := rows.length
    nullCount := nullCount
    positiveCount := positiveCount
    dataType := dataType
    ordered := detectOrderG ltC gtC comparableValues }

/-- The `dateColumns` filter of `analyzeData`: keep a column when it has a
non-null value and the date parses among its first 15 non-null values
reach `min(5, nonNullCount)`. -/
def dateColumnsOf (dateOk : Value → Bool) (rows : List Row)
    (columns : List String) : List String :=
  columns.filter (fun column =>
    let nonNullValues :=
      (rows.map (fun r => rowGet r column)).filter (fun v => !isNullValue v)
    if nonNullValues.length = 0 then false
    else
      let dateMatches :=
        ((nonNullValues.take 15).filter (fun v => parseDateOk dateOk v)).length
      decide (Nat.min 5 nonNullValues.length ≤ dateMatches))

/-- The message of the `EmptyDatasetError` thrown by `analyzeData`. -/
def emptyDatasetError : String :=
  "El archivo está vacío o no tiene filas válidas."

/-- `analyzeData` of the source: the empty dataset throws; otherwise the
columns are the first-occurrence union of the rows' keys and the result
record is assembled from the per-column statistics. -/
def analyzeData (dateOk : Value → Bool) (rows : List Row) :
    Except String AnalysisResult :=
  if rows.length = 0 then .error emptyDatasetError
  else
    let columns := dedupFirst (rows.flatMap (fun r => r.map Prod.fst))
    let columnStats := columns.map (computeColumnStats rows)
    let numericColumns :=
      (columnStats.filter (fun c => c.dataType = DataType.numerico)).map (fun c => c.name)
    let dateColumns := dateColumnsOf dateOk rows columns
    let columnsWithNulls := (columnStats.filter (fun c => 0 < c.nullCount)).length
    let totalPositiveValues := (columnStats.map (fun c => c.positiveCount)).sum
    let firstColumnValues :=
      match columns.head? with
      | none => ([] : List Comparable)
      | some firstColumn =>
        ((rows.map (fun r => rowGet r firstColumn)).filter
          (fun v => !isNullValue v)).map toComparable
    let orderedByFirstColumn := detectOrderG ltC gtC firstColumnValues ≠ Order3.sinOrden
    .ok
      { totalRows := rows.length
        totalColumns := columns.length
        hasNulls := 0 < columnsWithNulls
        orderedByFirstColumn := orderedByFirstColumn
        totalPositiveValues := totalPositiveValues
        columnsWithNulls := columnsWithNulls
        columnStats := columnStats
        numericColumns := numericColumns
        dateColumns := dateColumns
        rawRows := rows }

structure HistogramBin where
  bin : String
  count : ℕ
deriving DecidableEq

/-- Two decimal digits, left padded with a zero. -/
def pad2 (n : ℕ) : String :=
  if n < 10 then "0" ++ toString n else toString n

/-- `x.toFixed(2)` for a non-negative rational: scale by 100 and round,
ties going to the larger integer as ECMA prescribes. -/
def toFixed2abs (q : ℚ) : String :=
  let m := (⌊q * 100 + 1 / 2⌋).toNat
  toString (m / 100) ++ "." ++ pad2 (m % 100)

/-- `x.toFixed(2)`: the sign is taken from the argument before rounding
its absolute value, so a tiny negative number prints as `-0.00`. -/
def toFixed2 (q : ℚ) : String :=
  if q < 0 then "-" ++ toFixed2abs (-q) else toFixed2abs q

/-- `${x}` for the single-bin label.  An integer prints exactly as JS
does; for a non-integer the JS shortest-round-trip float notation has no
exact rational counterpart and the rational's own notation stands in. -/
def numLabel (q : ℚ) : String :=
  if q.den = 1 then toString q.num else toString q

/-- The bucket index of one value:
`Math.min(bins - 1, Math.floor((value - min) / step))`. -/
def bucketIndex (bins : ℕ) (mn step v : ℚ) : ℤ :=
  min ((bins : ℤ) - 1) ⌊(v - mn) / step⌋

/-- `counts[index] += 1` for an integer index: a negative index lands on a
non-index property of the JS array and leaves the mapped entries alone. -/
def bump (counts : List ℕ) (i : ℤ) : List ℕ :=
  if 0 ≤ i then counts.set i.toNat (counts.getD i.toNat 0 + 1) else counts

/-- `buildHistogram` of the source (`bins` defaults to 8 at every call
site): empty input gives no bins; an all-equal input gives the single
labeled bin; otherwise each value bumps its clamped bucket and the bins
are labeled with 2-decimal boundaries. -/
def buildHistogram (values : List ℚ) (bins : ℕ) : List HistogramBin :=
  match values with
  | [] => []
  | v :: vs =>
    let mn := vs.foldl min v
    let mx := vs.foldl max v
    if mn = mx then [⟨numLabel mn, (v :: vs).length⟩]
    else
      let step := (mx - mn) / (bins : ℚ)
      let counts :=
        (v :: vs).foldl (fun c x => bump c (bucketIndex bins mn step x))
          (List.replicate bins 0)
      counts.enum.map (fun p =>
        ⟨toFixed2 (mn + step * (p.1 : ℚ)) ++ " - " ++
            toFixed2 (mn + step * ((p.1 : ℚ) + 1)), p.2⟩)

/-- `calculateCorrelation` of the source: empty or mismatched inputs give
the sentinel 0; otherwise the mean-centred cross product over the square
root of the product of the centred square sums, with a zero denominator
giving 0. -/
noncomputable def calculateCorrelation (xs ys : List ℝ) : ℝ :=
  if xs.length = 0 ∨ ys.length = 0 ∨ xs.length ≠ ys.length then 0
  else
    let n : ℝ := (xs.length : ℝ)
    let meanX := xs.sum / n
    let meanY := ys.sum / n
    let numerator := ((xs.zip ys).map (fun p => (p.1 - meanX) * (p.2 - meanY))).sum
    let denominatorX := (xs.map (fun x => (x - meanX) ^ 2)).sum
    let denominatorY := (ys.map (fun y => (y - meanY) ^ 2)).sum
    let denominator := Real.sqrt (denominatorX * denominatorY)
    if denominator = 0 then 0 else numerator / denominator

/-- The sum of squared deviations of a series from its own mean; the
series is constant exactly when this is zero. -/
noncomputable def centredSquareSum (xs : List ℝ) : ℝ :=
  (xs.map (fun x => (x - xs.sum / (xs.length : ℝ)) ^ 2)).sum

/-- The classic Pearson formula as the spec words it: the mean-centred
cross product (the covariance) normalised by the product of the two
series' standard deviations. -/
noncomputable def pearsonSpecFormula (xs ys : List ℝ) : ℝ :=
  let covariance := ((xs.zip ys).map
    (fun p => (p.1 - xs.sum / (xs.length : ℝ)) * (p.2 - ys.sum / (ys.length : ℝ)))).sum /
      (xs.length : ℝ)
  let stdX := Real.sqrt (centredSquareSum xs / (xs.length : ℝ))
  let stdY := Real.sqrt (centredSquareSum ys / (ys.length : ℝ))
  covariance / (stdX * stdY)

/-- One column's numeric extraction for the correlation matrix:
`rows.map(row => toNumber(row[column])).filter(v => v !== null)`. -/
def extractNumeric (rows : List Row) (column : String) : List ℚ :=
  (rows.map (fun r => toNumber (rowGet r column))).filterMap id

/-- The injection of the engine's exact rational numbers into the reals
over which the correlation arithmetic is carried out. -/
noncomputable def ratToReal (q : ℚ) : ℝ := (q : ℝ)

/-- The memoized `correlationMatrix`: every ordered pair of numeric
columns, each side's extraction truncated to the shorter length. -/
noncomputable def correlationMatrix (numericColumns : List String)
    (rows : List Row) : List (List ℝ) :=
  numericColumns.map (fun column =>
    let columnValues := (extractNumeric rows column).map ratToReal
    numericColumns.map (fun otherColumn =>
      let otherValues := (extractNumeric rows otherColumn).map ratToReal
      let minLength := min columnValues.length otherValues.length
      calculateCorrelation (columnValues.take minLength)
        (otherValues.take minLength)))

structure ScatterPair where
  x : String
  y : String
  points : List (ℚ × ℚ)
deriving DecidableEq

/-- The point list of one scatter pair: rows where both columns coerce to
numbers. -/
def scatterPoints (rows : List Row) (xColumn yColumn : String) : List (ℚ × ℚ) :=
  (rows.map (fun r => (toNumber (rowGet r xColumn), toNumber (rowGet r yColumn)))).filterMap
    (fun p => match p with
      | (some a, some b) => some (a, b)
      | _ => none)

/-- The `(i, j)` loop with `i < j` over the column list, as the ordered
list of name pairs it visits. -/
def namePairs : List String → List (String × String)
  | [] => []
  | c :: cs => (cs.map (fun d => (c, d))) ++ namePairs cs

/-- The loop body of the memoized `scatterPairs`: push a non-empty pair,
and return as soon as four pairs are collected. -/
def scatterAux (rows : List Row) :
    List (String × String) → List ScatterPair → List ScatterPair
  | [], pairs => pairs
  | p :: rest, pairs =>
    let points := scatterPoints rows p.1 p.2
    let pairs' := if 0 < points.length then pairs ++ [⟨p.1, p.2, points⟩] else pairs
    if 4 ≤ pairs'.length then pairs' else scatterAux rows rest pairs'

/-- The memoized `scatterPairs` over an analysis' numeric columns. -/
def scatterPairsOf (rows : List Row) (numericColumns : List String) :
    List ScatterPair :=
  scatterAux rows (namePairs numericColumns) []

/-! ### Shared helper lemmas -/

lemma length_filter_add_length_filter_not {α : Type} (p : α → Bool) (l : List α) :
    (l.filter p).length + (l.filter (fun a => !p a)).length = l.length := by
  induction l with
  | nil => rfl
  | cons a t ih =>
    cases h : p a <;> simp [List.filter_cons, h, ← ih] <;> omega

lemma analyzeData_ok_of_ne_nil (dateOk : Value → Bool) (rows : List Row)
    (h : rows ≠ []) :
    analyzeData dateOk rows =
      .ok
        { totalRows := rows.length
          totalColumns := (dedupFirst (rows.flatMap (fun r => r.map Prod.fst))).length
          hasNulls :=
            0 < (((dedupFirst (rows.flatMap (fun r => r.map Prod.fst))).map
              (computeColumnStats rows)).filter (fun c => 0 < c.nullCount)).length
          orderedByFirstColumn :=
            detectOrderG ltC gtC
              (match (dedupFirst (rows.flatMap (fun r => r.map Prod.fst))).head? with
                | none => ([] : List Comparable)
                | some firstColumn =>
                  ((rows.map (fun r => rowGet r firstColumn)).filter
                    (fun v => !isNullValue v)).map toComparable) ≠ Order3.sinOrden
          totalPositiveValues :=
            (((dedupFirst (rows.flatMap (fun r => r.map Prod.fst))).map
              (computeColumnStats rows)).map (fun c => c.positiveCount)).sum
          columnsWithNulls :=
            (((dedupFirst (rows.flatMap (fun r => r.map Prod.fst))).map
              (computeColumnStats rows)).filter (fun c => 0 < c.nullCount)).length
          columnStats :=
            (dedupFirst (rows.flatMap (fun r => r.map Prod.fst))).map
              (computeColumnStats rows)
          numericColumns :=
            ((((dedupFirst (rows.flatMap (fun r => r.map Prod.fst))).map
              (computeColumnStats rows)).filter
                (fun c => c.dataType = DataType.numerico)).map (fun c => c.name))
          dateColumns :=
            dateColumnsOf dateOk rows (dedupFirst (rows.flatMap (fun r => r.map Prod.fst)))
          rawRows := rows } := by
  unfold analyzeData
  rw [if_neg (by simpa [List.length_eq_zero] using h)]

/-! ### Claim theorems -/

/-- C1: `analyze(rows)` fails with `EmptyDatasetError` if and only if
`rows` has zero length, and on every non-empty dataset it never fails and
returns a complete `AnalysisResult`. -/
theorem analyze_fails_iff_empty (dateOk : Value → Bool) (rows : List Row) :
    ((∃ e, analyzeData dateOk rows = .error e) ↔ rows = []) ∧
    (rows ≠ [] → ∃ result, analyzeData dateOk rows = .ok result) := by
  refine ⟨⟨?_, ?_⟩, ?_⟩
  · rintro ⟨e, he⟩
    by_contra hne
    rw [analyzeData_ok_of_ne_nil dateOk rows hne] at he
    cases he
  · rintro rfl
    exact ⟨emptyDatasetError, rfl⟩
  · intro hne
    exact ⟨_, analyzeData_ok_of_ne_nil dateOk rows hne⟩

/-- Witness for C1 at concrete inputs: the empty dataset errors and a
one-row dataset succeeds. -/
theorem analyze_fails_iff_empty_witness :
    (∃ e, analyzeData (fun _ => false) [] = .error e) ∧
    (∃ result,
      analyzeData (fun _ => false) [[(String.mk ['a'], Value.num 1)]] = .ok result) :=
  ⟨(analyze_fails_iff_empty (fun _ => false) []).1.mpr rfl,
    (analyze_fails_iff_empty (fun _ => false) [[(String.mk ['a'], Value.num 1)]]).2
      (by simp)⟩

lemma replaceCommas_preserves_ws :
    (fun c => isJsWhitespace (if c = ',' then '.' else c)) = isJsWhitespace := by
  funext c
  by_cases h : c = ','
  · subst h; decide
  · simp [h]

lemma trimChars_replaceCommas (l : List Char) :
    trimChars (replaceCommas l) = replaceCommas (trimChars l) := by
  have h : (isJsWhitespace ∘ fun c => if c = ',' then '.' else c) = isJsWhitespace := by
    funext c
    exact congrFun replaceCommas_preserves_ws c
  unfold trimChars replaceCommas
  simp only [List.dropWhile_map, ← List.map_reverse, h]

/-- C10: a value classified as null coerces to nothing or to the number 0
(a whitespace-only string is null yet coerces to 0), so a null value can
enter the numeric sequence but never counts as strictly positive. -/
theorem null_coerces_to_none_or_zero (v : Value) (h : isNullValue v = true) :
    (toNumber v = none ∨ toNumber v = some 0) ∧
    (∀ q : ℚ, toNumber v = some q → ¬0 < q) := by
  have main : toNumber v = none ∨ toNumber v = some 0 := by
    match v with
    | .null => exact Or.inl rfl
    | .num q => simp [isNullValue] at h
    | .text s =>
      right
      have hts : trimChars s.data = [] := by
        have := of_decide_eq_true (by simpa [isNullValue] using h)
        simpa using this
      show jsParseNumber (String.mk (replaceCommas s.data)) = some 0
      have htr : trimChars (replaceCommas s.data) = [] := by
        rw [trimChars_replaceCommas, hts]
        rfl
      unfold jsParseNumber
      simp only [htr]
  refine ⟨main, ?_⟩
  intro q hq
  rcases main with h0 | h0
  · rw [h0] at hq; cases hq
  · rw [h0] at hq
    cases hq
    exact lt_irrefl 0

/-- Witness for C10 at the whitespace-only string. -/
theorem null_coerces_witness :
    isNullValue (Value.text (String.mk [' '])) = true ∧
    toNumber (Value.text (String.mk [' '])) = some 0 := by
  refine ⟨by decide, ?_⟩
  rcases (null_coerces_to_none_or_zero (Value.text (String.mk [' '])) (by decide)).1
    with h | h
  · exact absurd h (by decide)
  · exact h

lemma all_zip_tail_iff {α : Type} (p : α → α → Bool) :
    ∀ values : List α,
      ((values.zip values.tail).all (fun q => p q.1 q.2) = true ↔
        List.Chain' (fun a b => p a b = true) values)
  | [] => by simp
  | [_] => by simp
  | a :: b :: l => by
    rw [List.chain'_cons]
    have ih := all_zip_tail_iff p (b :: l)
    simp only [List.tail_cons, List.zip_cons_cons, List.all_cons,
      Bool.and_eq_true] at ih ⊢
    exact and_congr Iff.rfl ih

/-- C5: on a decidable linear order the detector returns `ascendente` when
every element is at least its predecessor (checked first, so an all-equal
sequence is ascending), `descendente` when every element is at most its
predecessor, `sinOrden` otherwise, and `sinOrden` for every sequence
shorter than 2. -/
theorem detectOrder_classification {α : Type} [LinearOrder α] (values : List α) :
    (detectOrderLin values =
      if values.length < 2 then Order3.sinOrden
      else if List.Chain' (fun a b => a ≤ b) values then Order3.ascendente
      else if List.Chain' (fun a b => b ≤ a) values then Order3.descendente
      else Order3.sinOrden) ∧
    (2 ≤ values.length → (∀ v ∈ values, ∀ w ∈ values, v = w) →
      detectOrderLin values = Order3.ascendente) := by
  have hasc : ((values.zip values.tail).all (fun q => !decide (q.2 < q.1)) = true) ↔
      List.Chain' (fun a b => a ≤ b) values := by
    rw [all_zip_tail_iff (fun a b => !decide (b < a)) values]
    have hrel : ∀ a b : α, ((!decide (b < a)) = true) ↔ a ≤ b := by
      intro a b
      simp [not_lt]
    exact ⟨fun h => h.imp (fun a b hab => (hrel a b).1 hab),
      fun h => h.imp (fun a b hab => (hrel a b).2 hab)⟩
  have hdesc : ((values.zip values.tail).all (fun q => !decide (q.1 < q.2)) = true) ↔
      List.Chain' (fun a b => b ≤ a) values := by
    rw [all_zip_tail_iff (fun a b => !decide (a < b)) values]
    have hrel : ∀ a b : α, ((!decide (a < b)) = true) ↔ b ≤ a := by
      intro a b
      simp [not_lt]
    exact ⟨fun h => h.imp (fun a b hab => (hrel a b).1 hab),
      fun h => h.imp (fun a b hab => (hrel a b).2 hab)⟩
  have main : detectOrderLin values =
      if values.length < 2 then Order3.sinOrden
      else if List.Chain' (fun a b => a ≤ b) values then Order3.ascendente
      else if List.Chain' (fun a b => b ≤ a) values then Order3.descendente
      else Order3.sinOrden := by
    unfold detectOrderLin detectOrderG
    by_cases h2 : values.length < 2
    · simp [h2]
    · simp only [if_neg h2]
      by_cases ha : List.Chain' (fun a b => a ≤ b) values
      · rw [if_pos (hasc.mpr ha), if_pos ha]
      · rw [if_neg (fun hb => ha (hasc.mp hb)), if_neg ha]
        by_cases hd : List.Chain' (fun a b => b ≤ a) values
        · rw [if_pos (hdesc.mpr hd), if_pos hd]
        · rw [if_neg (fun hb => hd (hdesc.mp hb)), if_neg hd]
  refine ⟨main, ?_⟩
  intro hlen heq
  rw [main, if_neg (by omega)]
  rw [if_pos ?_]
  rw [List.chain'_iff_get]
  intro i hi
  exact le_of_eq (heq _ (List.get_mem values _ _) _ (List.get_mem values _ _))

/-- Witness for C5: the all-equal sequence `[5,5,5]` is ascending. -/
theorem detectOrder_classification_witness :
    detectOrderLin ([5, 5, 5] : List ℚ) = Order3.ascendente :=
  (detectOrder_classification ([5, 5, 5] : List ℚ)).2 (by decide) (by decide)

/-- The source's `nonNullValues` for one column: the raw values of every
row (missing key read as null), keeping those not classified null. -/
def nonNullValues (rows : List Row) (column : String) : List Value :=
  (rows.map (fun r => rowGet r column)).filter (fun v => !isNullValue v)

lemma analyzeData_ok_elim (dateOk : Value → Bool) (rows : List Row)
    (result : AnalysisResult) (h : analyzeData dateOk rows = .ok result) :
    result.columnStats =
        (dedupFirst (rows.flatMap (fun r => r.map Prod.fst))).map
          (computeColumnStats rows) ∧
    result.totalRows = rows.length ∧
    result.dateColumns =
        dateColumnsOf dateOk rows (dedupFirst (rows.flatMap (fun r => r.map Prod.fst))) := by
  by_cases hne : rows = []
  · subst hne
    simp [analyzeData] at h
  · rw [analyzeData_ok_of_ne_nil dateOk rows hne] at h
    have h2 := Except.ok.inj h
    subst h2
    exact ⟨rfl, rfl, rfl⟩

lemma computeColumnStats_name (rows : List Row) (column : String) :
    (computeColumnStats rows column).name = column := rfl

lemma computeColumnStats_nullCount (rows : List Row) (column : String) :
    (computeColumnStats rows column).nullCount =
      ((rows.map (fun r => rowGet r column)).filter (fun v => isNullValue v)).length := rfl

lemma computeColumnStats_dataType (rows : List Row) (column : String) :
    (computeColumnStats rows column).dataType =
      (if (nonNullValues rows column).length > 0 then
        if ((nonNullValues rows column).filter (fun v => (toNumber v).isSome)).length =
            (nonNullValues rows column).length then DataType.numerico
        else if ((nonNullValues rows column).filter
            (fun v => (toNumber v).isSome)).length = 0 then DataType.texto
        else DataType.mixto
      else DataType.vacio) := rfl

/-- C2: for every column profile produced by `analyze`, `nullCount` plus
the count of non-null raw values equals `totalRows`, `totalRows` is the
dataset's row count, and `nullCount ≤ totalRows`. -/
theorem columnStats_null_invariant (dateOk : Value → Bool) (rows : List Row)
    (result : AnalysisResult) (h : analyzeData dateOk rows = .ok result)
    (stat : ColumnStats) (hs : stat ∈ result.columnStats) :
    stat.nullCount + (nonNullValues rows stat.name).length = result.totalRows ∧
    result.totalRows = rows.length ∧
    stat.nullCount ≤ result.totalRows := by
  obtain ⟨hcs, htr, -⟩ := analyzeData_ok_elim dateOk rows result h
  rw [hcs] at hs
  obtain ⟨c, -, hceq⟩ := List.mem_map.mp hs
  subst hceq
  rw [computeColumnStats_name, computeColumnStats_nullCount, htr]
  have hlen := length_filter_add_length_filter_not (fun v => isNullValue v)
    (rows.map (fun r => rowGet r c))
  rw [List.length_map] at hlen
  refine ⟨hlen, rfl, ?_⟩
  omega

/-- Witness for C2 at a two-row dataset with one null cell. -/
theorem columnStats_null_invariant_witness :
    ∃ result stat,
      analyzeData (fun _ => false)
          [[(String.mk ['a'], Value.num 2)], [(String.mk ['a'], Value.null)]] = .ok result ∧
      stat ∈ result.columnStats ∧
      stat.nullCount +
          (nonNullValues
            [[(String.mk ['a'], Value.num 2)], [(String.mk ['a'], Value.null)]]
            stat.name).length = result.totalRows ∧
      result.totalRows = 2 ∧
      stat.nullCount ≤ result.totalRows := by
  refine ⟨_, computeColumnStats
    [[(String.mk ['a'], Value.num 2)], [(String.mk ['a'], Value.null)]]
    (String.mk ['a']), rfl, ?_, ?_⟩
  · decide
  · have h := columnStats_null_invariant (fun _ => false)
      [[(String.mk ['a'], Value.num 2)], [(String.mk ['a'], Value.null)]] _ rfl
      (computeColumnStats
        [[(String.mk ['a'], Value.num 2)], [(String.mk ['a'], Value.null)]]
        (String.mk ['a'])) (by decide)
    exact ⟨h.1, h.2.1, h.2.2⟩

/-- C3: `dataType` follows the classification rule over the column's
non-null raw values: all coerce, none coerce, some but not all, or no
non-null values at all. -/
theorem dataType_classification (dateOk : Value → Bool) (rows : List Row)
    (result : AnalysisResult) (h : analyzeData dateOk rows = .ok result)
    (stat : ColumnStats) (hs : stat ∈ result.columnStats) :
    (nonNullValues rows stat.name = [] → stat.dataType = DataType.vacio) ∧
    (nonNullValues rows stat.name ≠ [] →
      (∀ v ∈ nonNullValues rows stat.name, (toNumber v).isSome) →
      stat.dataType = DataType.numerico) ∧
    (nonNullValues rows stat.name ≠ [] →
      (∀ v ∈ nonNullValues rows stat.name, toNumber v = none) →
      stat.dataType = DataType.texto) ∧
    ((∃ v ∈ nonNullValues rows stat.name, (toNumber v).isSome) →
      (∃ v ∈ nonNullValues rows stat.name, toNumber v = none) →
      stat.dataType = DataType.mixto) := by
  obtain ⟨hcs, -, -⟩ := analyzeData_ok_elim dateOk rows result h
  rw [hcs] at hs
  obtain ⟨c, -, hceq⟩ := List.mem_map.mp hs
  subst hceq
  rw [computeColumnStats_name, computeColumnStats_dataType]
  refine ⟨?_, ?_, ?_, ?_⟩
  · intro hnil
    rw [hnil]
    simp
  · intro hne hall
    have hfe : (nonNullValues rows c).filter (fun v => (toNumber v).isSome) =
        nonNullValues rows c :=
      List.filter_eq_self.mpr hall
    rw [if_pos (by simpa [List.length_pos] using hne), if_pos (by rw [hfe])]
  · intro hne hnone
    have hf0 : ((nonNullValues rows c).filter (fun v => (toNumber v).isSome)).length = 0 := by
      rw [List.length_eq_zero, List.filter_eq_nil_iff]
      intro v hv
      simp [hnone v hv]
    rw [if_pos (by simpa [List.length_pos] using hne)]
    rw [if_neg ?_, if_pos hf0]
    rw [hf0]
    have : 0 < (nonNullValues rows c).length := by
      simpa [List.length_pos] using hne
    omega
  · rintro ⟨v1, hv1, hsome⟩ ⟨v2, hv2, hnone⟩
    have hpos : 0 < ((nonNullValues rows c).filter (fun v => (toNumber v).isSome)).length := by
      rw [List.length_pos]
      intro hnil
      have : v1 ∈ (nonNullValues rows c).filter (fun v => (toNumber v).isSome) :=
        List.mem_filter.mpr ⟨hv1, hsome⟩
      rw [hnil] at this
      cases this
    have hlt : ((nonNullValues rows c).filter (fun v => (toNumber v).isSome)).length <
        (nonNullValues rows c).length := by
      rw [← List.countP_eq_length_filter]
      have := List.length_eq_countP_add_countP (l := nonNullValues rows c)
        (fun v => (toNumber v).isSome)
      have hc2 : 0 < List.countP
          (fun v => decide ¬((toNumber v).isSome = true)) (nonNullValues rows c) := by
        rw [List.countP_pos_iff]
        exact ⟨v2, hv2, by simp [hnone]⟩
      omega
    rw [if_pos (by omega), if_neg (by omega), if_neg (by omega)]

/-- Witness for C3 at a one-column numeric dataset. -/
theorem dataType_classification_witness :
    ∃ result stat,
      analyzeData (fun _ => false) [[(String.mk ['a'], Value.num 1)]] = .ok result ∧
      stat ∈ result.columnStats ∧
      stat.dataType = DataType.numerico := by
  refine ⟨_, computeColumnStats [[(String.mk ['a'], Value.num 1)]] (String.mk ['a']),
    rfl, by decide, ?_⟩
  have h := dataType_classification (fun _ => false)
    [[(String.mk ['a'], Value.num 1)]] _ rfl
    (computeColumnStats [[(String.mk ['a'], Value.num 1)]] (String.mk ['a'])) (by decide)
  exact h.2.1 (by decide) (by decide)

lemma columnStats_names (dateOk : Value → Bool) (rows : List Row)
    (result : AnalysisResult) (h : analyzeData dateOk rows = .ok result) :
    result.columnStats.map (fun c => c.name) =
      dedupFirst (rows.flatMap (fun r => r.map Prod.fst)) := by
  obtain ⟨hcs, -, -⟩ := analyzeData_ok_elim dateOk rows result h
  rw [hcs, List.map_map]
  exact List.map_id _

/-- C4 (amended): a discovered column is a date column iff it has at
least one non-null value and the date parses among its first 15 non-null
values reach `min(5, nonNullCount)`; in particular a column with zero
non-null values is never a date column, although `0 ≥ min(5, 0)` holds. -/
theorem dateColumns_membership (dateOk : Value → Bool) (rows : List Row)
    (result : AnalysisResult) (h : analyzeData dateOk rows = .ok result)
    (column : String) (hc : column ∈ result.columnStats.map (fun c => c.name)) :
    column ∈ result.dateColumns ↔
      (nonNullValues rows column ≠ [] ∧
        Nat.min 5 (nonNullValues rows column).length ≤
          (((nonNullValues rows column).take 15).filter
            (fun v => parseDateOk dateOk v)).length) := by
  obtain ⟨-, -, hdc⟩ := analyzeData_ok_elim dateOk rows result h
  rw [columnStats_names dateOk rows result h] at hc
  rw [hdc]
  unfold dateColumnsOf
  rw [List.mem_filter]
  constructor
  · rintro ⟨-, hp⟩
    by_cases hnil : nonNullValues rows column = []
    · exfalso
      rw [show ((rows.map (fun r => rowGet r column)).filter (fun v => !isNullValue v)) =
          nonNullValues rows column from rfl, hnil] at hp
      simp at hp
    · refine ⟨hnil, ?_⟩
      rw [show ((rows.map (fun r => rowGet r column)).filter (fun v => !isNullValue v)) =
          nonNullValues rows column from rfl] at hp
      rw [if_neg (by simpa [List.length_eq_zero] using hnil)] at hp
      exact of_decide_eq_true hp
  · rintro ⟨hnil, hth⟩
    refine ⟨hc, ?_⟩
    rw [show ((rows.map (fun r => rowGet r column)).filter (fun v => !isNullValue v)) =
        nonNullValues rows column from rfl]
    rw [if_neg (by simpa [List.length_eq_zero] using hnil)]
    exact decide_eq_true hth

/-- Counterexample for C4 as stated: a column whose values are all null
has zero date parses and `min(5, 0) = 0 ≤ 0` holds, yet the column is not
a date column. -/
theorem dateColumns_membership_cex :
    ∃ result,
      analyzeData (fun _ => true) [[(String.mk ['a'], Value.null)]] = .ok result ∧
      (String.mk ['a']) ∈ result.columnStats.map (fun c => c.name) ∧
      ¬ ((String.mk ['a']) ∈ result.dateColumns ↔
        Nat.min 5
            (nonNullValues [[(String.mk ['a'], Value.null)]] (String.mk ['a'])).length ≤
          (((nonNullValues [[(String.mk ['a'], Value.null)]] (String.mk ['a'])).take 15).filter
            (fun v => parseDateOk (fun _ => true) v)).length) := by
  exact ⟨_, rfl, by decide, by decide⟩

/-- Witness for C4 (amended): a single non-null numeric value with a
never-succeeding date constructor is not a date column, matching the
threshold test `1 ≤ 0` being false. -/
theorem dateColumns_membership_witness :
    ∃ result,
      analyzeData (fun _ => false) [[(String.mk ['a'], Value.num 3)]] = .ok result ∧
      ((String.mk ['a']) ∈ result.dateColumns ↔
        (nonNullValues [[(String.mk ['a'], Value.num 3)]] (String.mk ['a']) ≠ [] ∧
          Nat.min 5
              (nonNullValues [[(String.mk ['a'], Value.num 3)]] (String.mk ['a'])).length ≤
            (((nonNullValues [[(String.mk ['a'], Value.num 3)]]
                (String.mk ['a'])).take 15).filter
              (fun v => parseDateOk (fun _ => false) v)).length)) :=
  ⟨_, rfl, dateColumns_membership (fun _ => false)
    [[(String.mk ['a'], Value.num 3)]] _ rfl (String.mk ['a']) (by decide)⟩

/-- The scatter pair the loop body builds for one name pair. -/
def scatterItem (rows : List Row) (p : String × String) : ScatterPair :=
  ⟨p.1, p.2, scatterPoints rows p.1 p.2⟩

lemma scatterAux_eq (rows : List Row) :
    ∀ (l : List (String × String)) (pairs : List ScatterPair),
      pairs.length < 4 →
      scatterAux rows l pairs =
        pairs ++ ((l.map (scatterItem rows)).filter
          (fun sp => 0 < sp.points.length)).take (4 - pairs.length)
  | [], pairs, _ => by simp [scatterAux]
  | p :: rest, pairs, hlt => by
    unfold scatterAux
    dsimp only
    by_cases hpts : 0 < (scatterPoints rows p.1 p.2).length
    · rw [if_pos hpts]
      by_cases hfull :
          4 ≤ (pairs ++ [ScatterPair.mk p.1 p.2 (scatterPoints rows p.1 p.2)]).length
      · rw [if_pos hfull]
        have h3 : pairs.length = 3 := by
          rw [List.length_append] at hfull
          simp at hfull
          omega
        rw [List.map_cons, List.filter_cons]
        rw [if_pos (by simpa [scatterItem] using hpts)]
        rw [h3]
        rfl
      · rw [if_neg hfull]
        have hlt2 : (pairs ++ [ScatterPair.mk p.1 p.2 (scatterPoints rows p.1 p.2)]).length < 4 := by
          omega
        rw [scatterAux_eq rows rest _ hlt2]
        rw [List.map_cons, List.filter_cons]
        rw [if_pos (by simpa [scatterItem] using hpts)]
        have hlen : (pairs ++ [ScatterPair.mk p.1 p.2 (scatterPoints rows p.1 p.2)]).length =
            pairs.length + 1 := by
          rw [List.length_append]
          rfl
        rw [hlen]
        have hsub : 4 - pairs.length = (4 - (pairs.length + 1)) + 1 := by omega
        rw [hsub, List.take_succ_cons, List.append_assoc]
        rfl
    · rw [if_neg hpts]
      rw [if_neg (by omega)]
      rw [scatterAux_eq rows rest pairs hlt]
      rw [List.map_cons, List.filter_cons]
      rw [if_neg (by simpa [scatterItem] using hpts)]

/-- C8: the scatter selection is exactly the first (at most) four
non-empty pairs of the `i < j` enumeration over the numeric columns, so
there are at most four pairs and every kept pair has a non-empty point
list. -/
theorem scatterPairs_spec (rows : List Row) (numericColumns : List String) :
    scatterPairsOf rows numericColumns =
      (((namePairs numericColumns).map (scatterItem rows)).filter
        (fun sp => 0 < sp.points.length)).take 4 ∧
    (scatterPairsOf rows numericColumns).length ≤ 4 ∧
    (∀ sp ∈ scatterPairsOf rows numericColumns, sp.points ≠ []) := by
  have hmain := scatterAux_eq rows (namePairs numericColumns) [] (by simp)
  have hm2 : scatterPairsOf rows numericColumns =
      (((namePairs numericColumns).map (scatterItem rows)).filter
        (fun sp => 0 < sp.points.length)).take 4 := by
    simpa [scatterPairsOf] using hmain
  refine ⟨hm2, ?_, ?_⟩
  · rw [hm2, List.length_take]
    omega
  · intro sp hsp
    rw [hm2] at hsp
    have hsub := List.take_subset 4 (((namePairs numericColumns).map
      (scatterItem rows)).filter (fun sp => 0 < sp.points.length))
    have hmem := List.mem_filter.mp (hsub hsp)
    have hpos : 0 < sp.points.length := of_decide_eq_true hmem.2
    intro hnil
    rw [hnil] at hpos
    cases hpos

/-- The claim's bucket formula `clamp(floor((v - min) / width), 0, binCount - 1)`. -/
def clampIndex (bins : ℕ) (mn width x : ℚ) : ℤ :=
  max 0 (min ((bins : ℤ) - 1) ⌊(x - mn) / width⌋)

lemma foldl_min_le {α : Type} [LinearOrder α] :
    ∀ (l : List α) (a : α), ∀ x ∈ a :: l, l.foldl min a ≤ x
  | [], a, x, hx => by
    simp at hx
    simp [hx]
  | b :: t, a, x, hx => by
    have ih := foldl_min_le t (min a b)
    have hM : t.foldl min (min a b) ≤ min a b := ih _ (List.mem_cons_self _ _)
    rcases List.mem_cons.mp hx with rfl | hx2
    · exact le_trans hM (le_trans (min_le_left _ _) le_rfl)
    · rcases List.mem_cons.mp hx2 with rfl | hx3
      · exact le_trans hM (min_le_right _ _)
      · exact ih x (List.mem_cons_of_mem _ hx3)

lemma le_foldl_max {α : Type} [LinearOrder α] :
    ∀ (l : List α) (a : α), ∀ x ∈ a :: l, x ≤ l.foldl max a
  | [], a, x, hx => by
    simp at hx
    simp [hx]
  | b :: t, a, x, hx => by
    have ih := le_foldl_max t (max a b)
    have hM : max a b ≤ t.foldl max (max a b) := ih _ (List.mem_cons_self _ _)
    rcases List.mem_cons.mp hx with rfl | hx2
    · exact le_trans (le_max_left _ _) hM
    · rcases List.mem_cons.mp hx2 with rfl | hx3
      · exact le_trans (le_max_right _ _) hM
      · exact ih x (List.mem_cons_of_mem _ hx3)

lemma bump_length (counts : List ℕ) (i : ℤ) : (bump counts i).length = counts.length := by
  unfold bump
  by_cases h : 0 ≤ i <;> simp [h]

lemma foldl_bump_length (f : ℚ → ℤ) :
    ∀ (xs : List ℚ) (counts : List ℕ),
      (xs.foldl (fun c x => bump c (f x)) counts).length = counts.length
  | [], _ => rfl
  | x :: xs, counts => by
    rw [List.foldl_cons, foldl_bump_length f xs (bump counts (f x)), bump_length]

lemma bump_getD (counts : List ℕ) (i : ℤ) (j : ℕ) (hj : j < counts.length) :
    (bump counts i).getD j 0 =
      if i = (j : ℤ) then counts.getD j 0 + 1 else counts.getD j 0 := by
  unfold bump
  by_cases h0 : 0 ≤ i
  · rw [if_pos h0]
    by_cases hij : i = (j : ℤ)
    · rw [if_pos hij]
      have htj : i.toNat = j := by omega
      subst htj
      have hlt : i.toNat < (counts.set i.toNat (counts.getD i.toNat 0 + 1)).length := by
        rw [List.length_set]
        exact hj
      rw [List.getD_eq_getElem _ _ hlt, List.getElem_set_self]
    · rw [if_neg hij]
      have hne : i.toNat ≠ j := by omega
      have hlt : j < (counts.set i.toNat (counts.getD i.toNat 0 + 1)).length := by
        rw [List.length_set]
        exact hj
      rw [List.getD_eq_getElem _ _ hlt, List.getElem_set_ne hne,
        List.getD_eq_getElem _ _ hj]
  · rw [if_neg h0, if_neg (by omega)]

lemma foldl_bump_getD (f : ℚ → ℤ) :
    ∀ (xs : List ℚ) (counts : List ℕ) (j : ℕ), j < counts.length →
      (xs.foldl (fun c x => bump c (f x)) counts).getD j 0 =
        counts.getD j 0 + (xs.filter (fun x => f x = (j : ℤ))).length
  | [], _, _, _ => by simp
  | x :: xs, counts, j, hj => by
    rw [List.foldl_cons,
      foldl_bump_getD f xs (bump counts (f x)) j (by rw [bump_length]; exact hj),
      bump_getD counts (f x) j hj, List.filter_cons]
    by_cases hfx : f x = (j : ℤ)
    · rw [if_pos hfx, if_pos (decide_eq_true hfx)]
      simp
      omega
    · rw [if_neg hfx, if_neg (by simpa using hfx)]

lemma sum_set_getD_succ :
    ∀ (l : List ℕ) (j : ℕ), j < l.length →
      (l.set j (l.getD j 0 + 1)).sum = l.sum + 1
  | a :: t, 0, _ => by
    simp [List.set]
    omega
  | a :: t, j + 1, h => by
    have ih := sum_set_getD_succ t j (by simpa using h)
    simp [List.set, List.getD_cons_succ] at ih ⊢
    omega

lemma foldl_bump_sum (f : ℚ → ℤ) :
    ∀ (xs : List ℚ) (counts : List ℕ),
      (∀ x ∈ xs, 0 ≤ f x ∧ (f x).toNat < counts.length) →
      (xs.foldl (fun c x => bump c (f x)) counts).sum = counts.sum + xs.length
  | [], _, _ => by simp
  | x :: xs, counts, hbnd => by
    obtain ⟨h0, hlt⟩ := hbnd x (List.mem_cons_self _ _)
    have hsum : (bump counts (f x)).sum = counts.sum + 1 := by
      unfold bump
      rw [if_pos h0]
      exact sum_set_getD_succ counts (f x).toNat hlt
    rw [List.foldl_cons,
      foldl_bump_sum f xs (bump counts (f x))
        (fun y hy => by
          rw [bump_length]
          exact hbnd y (List.mem_cons_of_mem _ hy)),
      hsum, List.length_cons]
    omega

/-- C6: the empty input gives an empty histogram; an all-equal input
gives one bin labeled with the value counting every input; otherwise
there are exactly `bins` buckets, each value falls in the bucket given by
the clamped floor formula so the counts sum to the input length, the
labels are the 2-decimal bucket boundaries `min + width·i`, and the
maximum value lands in the last bucket. -/
theorem buildHistogram_spec (values : List ℚ) (bins : ℕ) (hb : 0 < bins) :
    (values = [] → buildHistogram values bins = []) ∧
    (∀ v vs, values = v :: vs →
      (vs.foldl min v = vs.foldl max v →
        buildHistogram values bins = [⟨numLabel (vs.foldl min v), values.length⟩]) ∧
      (vs.foldl min v ≠ vs.foldl max v →
        (buildHistogram values bins).length = bins ∧
        ((buildHistogram values bins).map (fun b => b.count)).sum = values.length ∧
        (∀ i : ℕ, i < bins →
          (buildHistogram values bins).getD i ⟨numLabel 0, 0⟩ =
            { bin := toFixed2 (vs.foldl min v +
                  (vs.foldl max v - vs.foldl min v) / (bins : ℚ) * (i : ℚ)) ++ " - " ++
                toFixed2 (vs.foldl min v +
                  (vs.foldl max v - vs.foldl min v) / (bins : ℚ) * ((i : ℚ) + 1))
              count := (values.filter (fun x =>
                clampIndex bins (vs.foldl min v)
                  ((vs.foldl max v - vs.foldl min v) / (bins : ℚ)) x = (i : ℤ))).length }) ∧
        clampIndex bins (vs.foldl min v)
            ((vs.foldl max v - vs.foldl min v) / (bins : ℚ)) (vs.foldl max v) =
          (bins : ℤ) - 1)) := by
  constructor
  · rintro rfl
    rfl
  · rintro v vs rfl
    constructor
    · intro heq
      simp only [buildHistogram]
      rw [if_pos heq]
    · intro hne
      have hmn : ∀ x ∈ v :: vs, vs.foldl min v ≤ x := foldl_min_le vs v
      have hmx : ∀ x ∈ v :: vs, x ≤ vs.foldl max v := le_foldl_max vs v
      have hlt : vs.foldl min v < vs.foldl max v :=
        lt_of_le_of_ne
          (le_trans (hmn v (List.mem_cons_self _ _)) (hmx v (List.mem_cons_self _ _))) hne
      have hstep : 0 < (vs.foldl max v - vs.foldl min v) / (bins : ℚ) := by
        apply div_pos (by linarith)
        exact_mod_cast hb
      have hidx : ∀ x ∈ v :: vs,
          bucketIndex bins (vs.foldl min v)
            ((vs.foldl max v - vs.foldl min v) / (bins : ℚ)) x =
          clampIndex bins (vs.foldl min v)
            ((vs.foldl max v - vs.foldl min v) / (bins : ℚ)) x ∧
          0 ≤ bucketIndex bins (vs.foldl min v)
            ((vs.foldl max v - vs.foldl min v) / (bins : ℚ)) x ∧
          (bucketIndex bins (vs.foldl min v)
            ((vs.foldl max v - vs.foldl min v) / (bins : ℚ)) x).toNat < bins := by
        intro x hx
        have hfl : 0 ≤ ⌊(x - vs.foldl min v) /
            ((vs.foldl max v - vs.foldl min v) / (bins : ℚ))⌋ := by
          rw [Int.floor_nonneg]
          exact div_nonneg (by linarith [hmn x hx]) (le_of_lt hstep)
        have h0 : 0 ≤ bucketIndex bins (vs.foldl min v)
            ((vs.foldl max v - vs.foldl min v) / (bins : ℚ)) x := by
          unfold bucketIndex
          omega
        refine ⟨?_, h0, ?_⟩
        · unfold bucketIndex clampIndex
          omega
        · unfold bucketIndex at h0 ⊢
          omega
      simp only [buildHistogram]
      rw [if_neg hne]
      have hclen : ((v :: vs).foldl
          (fun c x => bump c (bucketIndex bins (vs.foldl min v)
            ((vs.foldl max v - vs.foldl min v) / (bins : ℚ)) x))
          (List.replicate bins 0)).length = bins := by
        rw [foldl_bump_length, List.length_replicate]
      refine ⟨?_, ?_, ?_, ?_⟩
      · rw [List.length_map, List.enum_length, hclen]
      · rw [List.map_map]
        have : ((fun b => HistogramBin.count b) ∘ fun p =>
            HistogramBin.mk
              (toFixed2 (vs.foldl min v +
                  (vs.foldl max v - vs.foldl min v) / (bins : ℚ) * (p.1 : ℚ)) ++ " - " ++
                toFixed2 (vs.foldl min v +
                  (vs.foldl max v - vs.foldl min v) / (bins : ℚ) * ((p.1 : ℚ) + 1)))
              p.2) = fun p : ℕ × ℕ => p.2 := rfl
        rw [this, List.enum_map_snd]
        rw [foldl_bump_sum _ _ _
          (fun x hx => ⟨(hidx x hx).2.1, by
            rw [List.length_replicate]
            exact (hidx x hx).2.2⟩)]
        simp
      · intro i hi
        have hilen : i < (((v :: vs).foldl
            (fun c x => bump c (bucketIndex bins (vs.foldl min v)
              ((vs.foldl max v - vs.foldl min v) / (bins : ℚ)) x))
            (List.replicate bins 0)).enum.map (fun p =>
              HistogramBin.mk
                (toFixed2 (vs.foldl min v +
                    (vs.foldl max v - vs.foldl min v) / (bins : ℚ) * (p.1 : ℚ)) ++ " - " ++
                  toFixed2 (vs.foldl min v +
                    (vs.foldl max v - vs.foldl min v) / (bins : ℚ) * ((p.1 : ℚ) + 1)))
                p.2)).length := by
          rw [List.length_map, List.enum_length, hclen]
          exact hi
        have hget : ((v :: vs).foldl
            (fun c x => bump c (bucketIndex bins (vs.foldl min v)
              ((vs.foldl max v - vs.foldl min v) / (bins : ℚ)) x))
            (List.replicate bins 0)).getD i 0 =
            (((v :: vs)).filter (fun x =>
              bucketIndex bins (vs.foldl min v)
                ((vs.foldl max v - vs.foldl min v) / (bins : ℚ)) x = (i : ℤ))).length := by
          rw [foldl_bump_getD _ _ _ i (by rw [List.length_replicate]; exact hi)]
          rw [List.getD_eq_getElem _ _ (by rw [List.length_replicate]; exact hi),
            List.getElem_replicate]
          omega
        rw [List.getD_eq_getElem _ _ hilen, List.getElem_map, List.getElem_enum]
        dsimp only
        congr 1
        rw [← List.getD_eq_getElem _ 0 (by rw [hclen]; exact hi), hget]
        exact congrArg List.length
          (List.filter_congr (fun x hx => by rw [(hidx x hx).1]))
      · have hne0 : vs.foldl max v - vs.foldl min v ≠ 0 := ne_of_gt (by linarith)
        have hb0 : (bins : ℚ) ≠ 0 := Nat.cast_ne_zero.mpr (by omega)
        have heq : (vs.foldl max v - vs.foldl min v) /
            ((vs.foldl max v - vs.foldl min v) / (bins : ℚ)) = (bins : ℚ) := by
          field_simp
        unfold clampIndex
        rw [heq, Int.floor_natCast]
        omega

/-- Witness for C6: the all-equal input `[1,1,1]` with 8 bins gives one
bin of count 3, and `[0,10]` with 2 bins gives two buckets whose counts
sum to the input length. -/
theorem buildHistogram_spec_witness :
    buildHistogram [1, 1, 1] 8 = [⟨numLabel 1, 3⟩] ∧
    (buildHistogram [0, 10] 2).length = 2 ∧
    ((buildHistogram [0, 10] 2).map (fun b => b.count)).sum = 2 := by
  refine ⟨?_, ?_, ?_⟩
  · exact ((buildHistogram_spec [1, 1, 1] 8 (by decide)).2 1 [1, 1] rfl).1 (by decide)
  · exact (((buildHistogram_spec [0, 10] 2 (by decide)).2 0 [10] rfl).2 (by decide)).1
  · exact (((buildHistogram_spec [0, 10] 2 (by decide)).2 0 [10] rfl).2 (by decide)).2.1

lemma centredSquareSum_nonneg (xs : List ℝ) : 0 ≤ centredSquareSum xs :=
  List.sum_nonneg (fun x hx => by
    obtain ⟨a, -, rfl⟩ := List.mem_map.mp hx
    positivity)

/-- C7: the correlation is total: the sentinel 0 is returned for an empty
side or mismatched lengths and for a zero denominator (a constant
series); otherwise it is the classic mean-centred formula, and on the
spec's examples it gives 1 and -1. -/
theorem pearson_sentinels_and_formula (xs ys : List ℝ) :
    ((xs = [] ∨ ys = [] ∨ xs.length ≠ ys.length) → calculateCorrelation xs ys = 0) ∧
    (xs ≠ [] → xs.length = ys.length →
      (centredSquareSum xs = 0 ∨ centredSquareSum ys = 0 →
        calculateCorrelation xs ys = 0) ∧
      (centredSquareSum xs ≠ 0 → centredSquareSum ys ≠ 0 →
        calculateCorrelation xs ys = pearsonSpecFormula xs ys)) ∧
    calculateCorrelation [1, 2, 3] [2, 4, 6] = 1 ∧
    calculateCorrelation [1, 2, 3] [3, 2, 1] = -1 := by
  refine ⟨?_, ?_, ?_, ?_⟩
  · intro h
    unfold calculateCorrelation
    rw [if_pos ?_]
    rcases h with rfl | rfl | hne
    · exact Or.inl rfl
    · exact Or.inr (Or.inl rfl)
    · exact Or.inr (Or.inr hne)
  · intro hne hlen
    have hcond : ¬(xs.length = 0 ∨ ys.length = 0 ∨ xs.length ≠ ys.length) := by
      push_neg
      refine ⟨by simpa [List.length_eq_zero] using hne, by
        rw [← hlen]
        simpa [List.length_eq_zero] using hne, hlen⟩
    have hdY : (ys.map (fun y => (y - ys.sum / (xs.length : ℝ)) ^ 2)).sum =
        centredSquareSum ys := by
      rw [hlen]
      rfl
    constructor
    · intro hz
      unfold calculateCorrelation
      rw [if_neg hcond]
      dsimp only
      rw [hdY, show (xs.map (fun x => (x - xs.sum / (xs.length : ℝ)) ^ 2)).sum =
        centredSquareSum xs from rfl]
      rcases hz with hz | hz
      · rw [hz, zero_mul, Real.sqrt_zero, if_pos rfl]
      · rw [hz, mul_zero, Real.sqrt_zero, if_pos rfl]
    · intro hx0 hy0
      have hxpos : 0 < centredSquareSum xs :=
        lt_of_le_of_ne (centredSquareSum_nonneg xs) (Ne.symm hx0)
      have hypos : 0 < centredSquareSum ys :=
        lt_of_le_of_ne (centredSquareSum_nonneg ys) (Ne.symm hy0)
      have hspos : 0 < Real.sqrt (centredSquareSum xs * centredSquareSum ys) :=
        Real.sqrt_pos.mpr (mul_pos hxpos hypos)
      have hn : (0 : ℝ) < (xs.length : ℝ) := by
        have : xs.length ≠ 0 := by simpa [List.length_eq_zero] using hne
        exact_mod_cast Nat.pos_of_ne_zero this
      unfold calculateCorrelation
      rw [if_neg hcond]
      dsimp only
      rw [hdY, show (xs.map (fun x => (x - xs.sum / (xs.length : ℝ)) ^ 2)).sum =
        centredSquareSum xs from rfl]
      rw [if_neg (ne_of_gt hspos)]
      unfold pearsonSpecFormula
      dsimp only
      have hylen : (ys.length : ℝ) = (xs.length : ℝ) := by
        rw [hlen]
      rw [hylen]
      have hstd : Real.sqrt (centredSquareSum xs / (xs.length : ℝ)) *
          Real.sqrt (centredSquareSum ys / (xs.length : ℝ)) =
          Real.sqrt (centredSquareSum xs * centredSquareSum ys) / (xs.length : ℝ) := by
        rw [← Real.sqrt_mul (div_nonneg (le_of_lt hxpos) (le_of_lt hn)) _]
        rw [div_mul_div_comm]
        rw [Real.sqrt_div (mul_nonneg (le_of_lt hxpos) (le_of_lt hypos))]
        rw [Real.sqrt_mul_self (le_of_lt hn)]
      rw [hstd]
      rw [div_div_div_cancel_right₀]
      exact ne_of_gt hn
  · unfold calculateCorrelation
    rw [if_neg (by norm_num)]
    norm_num
    rw [show (16 : ℝ) = 4 ^ 2 by norm_num, Real.sqrt_sq (by norm_num)]
    norm_num
  · unfold calculateCorrelation
    rw [if_neg (by norm_num)]
    norm_num
    rw [show (4 : ℝ) = 2 ^ 2 by norm_num, Real.sqrt_sq (by norm_num)]
    norm_num

/-- Witness for C7: the empty pair and a mismatched-length pair both give
the sentinel 0. -/
theorem pearson_sentinels_witness :
    calculateCorrelation ([] : List ℝ) [] = 0 ∧
    calculateCorrelation [1, 2] [1, 2, 3] = 0 :=
  ⟨(pearson_sentinels_and_formula [] []).1 (Or.inl rfl),
    (pearson_sentinels_and_formula [1, 2] [1, 2, 3]).1
      (Or.inr (Or.inr (by norm_num)))⟩

lemma getD_map_of_lt {α β : Type} (f : α → β) (l : List α) (i : ℕ) (d : β)
    (hi : i < l.length) :
    (l.map f).getD i d = f l[i] := by
  rw [List.getD_eq_getElem _ _ (by simpa using hi)]
  exact List.getElem_map _

lemma calculateCorrelation_comm (xs ys : List ℝ) :
    calculateCorrelation xs ys = calculateCorrelation ys xs := by
  unfold calculateCorrelation
  by_cases hc : xs.length = 0 ∨ ys.length = 0 ∨ xs.length ≠ ys.length
  · rw [if_pos hc, if_pos (by tauto)]
  · push_neg at hc
    obtain ⟨hx0, hy0, hlen⟩ := hc
    rw [if_neg (show ¬(xs.length = 0 ∨ ys.length = 0 ∨ xs.length ≠ ys.length) from by
        push_neg
        exact ⟨hx0, hy0, hlen⟩),
      if_neg (show ¬(ys.length = 0 ∨ xs.length = 0 ∨ ys.length ≠ xs.length) from by
        push_neg
        exact ⟨hy0, hx0, hlen.symm⟩)]
    dsimp only
    have hylen : (ys.length : ℝ) = (xs.length : ℝ) := by rw [hlen]
    rw [hylen]
    conv_rhs => rw [← List.zip_swap xs ys]
    rw [List.map_map]
    have hfun : ((fun p : ℝ × ℝ =>
        (p.1 - ys.sum / (xs.length : ℝ)) * (p.2 - xs.sum / (xs.length : ℝ))) ∘ Prod.swap) =
        (fun p : ℝ × ℝ =>
          (p.1 - xs.sum / (xs.length : ℝ)) * (p.2 - ys.sum / (xs.length : ℝ))) := by
      funext p
      simp only [Function.comp, Prod.swap, Prod.fst, Prod.snd]
      ring
    rw [hfun]
    conv_rhs => rw [mul_comm]

/-- C9: `pearson` is symmetric in its two arguments, and therefore the
correlation matrix over the numeric columns (with both extractions
truncated to the shorter length) is symmetric. -/
theorem correlationMatrix_symmetric (numericColumns : List String) (rows : List Row)
    (i j : ℕ) (hi : i < numericColumns.length) (hj : j < numericColumns.length) :
    (∀ xs ys : List ℝ, calculateCorrelation xs ys = calculateCorrelation ys xs) ∧
    ((correlationMatrix numericColumns rows).getD i []).getD j 0 =
      ((correlationMatrix numericColumns rows).getD j []).getD i 0 := by
  refine ⟨calculateCorrelation_comm, ?_⟩
  unfold correlationMatrix
  rw [getD_map_of_lt _ _ i [] hi]
  dsimp only
  rw [getD_map_of_lt _ _ j (0 : ℝ) hj]
  rw [getD_map_of_lt _ _ j [] hj]
  rw [getD_map_of_lt _ _ i (0 : ℝ) hi]
  rw [min_comm ((extractNumeric rows numericColumns[i]).map ratToReal).length
    ((extractNumeric rows numericColumns[j]).map ratToReal).length]
  exact calculateCorrelation_comm _ _

/-- Witness for C9 on a concrete two-column dataset. -/
theorem correlationMatrix_symmetric_witness :
    ((correlationMatrix [String.mk ['a'], String.mk ['b']]
        [[(String.mk ['a'], Value.num 1), (String.mk ['b'], Value.num 2)]]).getD 0 []).getD 1 0 =
    ((correlationMatrix [String.mk ['a'], String.mk ['b']]
        [[(String.mk ['a'], Value.num 1), (String.mk ['b'], Value.num 2)]]).getD 1 []).getD 0 0 :=
  (correlationMatrix_symmetric [String.mk ['a'], String.mk ['b']]
    [[(String.mk ['a'], Value.num 1), (String.mk ['b'], Value.num 2)]] 0 1
    (by decide) (by decide)).2

end DataApp
